import Mathlib

/-!
Shallow embedding of `src/crodump/Datafile.py` (cronodump): the CroFile
container/index reader.  Bytes are modelled as `List Nat`, machine integers as
`Nat` with explicit masks, file reads as `drop`/`take` on the container byte
list (Python `f.seek(ofs); f.read(n)` returns the bytes available, possibly
fewer than `n`).  Python exceptions are modelled with `Except Err`; the
`while` loop of the extended-record reassembly is modelled both as a fueled
function (`extLoop`, result `none` when the fuel runs out) and as a big-step
relation (`ExtLoop`).  The external collaborators `koddecode` (module
`koddecoder`) and `zlib` inflation are not part of the sources; they enter the
model as function parameters `kod` and `decomp` of `readrec`, so that theorems
can quantify over them and witnesses can instantiate them.
-/

namespace Crodump

/-- little-endian value of a byte list (struct.unpack "<L"/"<Q" on exact-size slices). -/
def leBytes : List Nat → Nat
  | [] => 0
  | b :: rest => b + 256 * leBytes rest

/-- big-endian 16-bit read at offset `o` (struct.unpack_from ">H", used by `iscompressed`). -/
def be16 (data : List Nat) (o : Nat) : Nat :=
  256 * data.getD o 0 + data.getD (o + 1) 0

/-- struct.unpack "<L" on `b`: requires exactly 4 bytes, else struct.error (`none`). -/
def unpack4 (b : List Nat) : Option Nat :=
  if b.length = 4 then some (leBytes b) else none

deriving instance DecidableEq for Except

/-- Python exceptions raised by Datafile.  `invalidIndex` covers both the
explicit `recnum must be a positive number` raise (idx == 0) and the
`IndexError` of `self.tadidx[idx - 1]` (idx beyond the descriptor table); the
spec groups both under *InvalidIndex*.  `structError` is `struct.error` from an
unpack on a short byte string.  `notCrofile` and `v0111` are the two raises of
`readdathdr`. -/
inductive Err
  | notCrofile
  | v0111
  | invalidIndex
  | structError
deriving DecidableEq, Repr

/-- state of a constructed Datafile (the fields `__init__` assigns). -/
structure Datafile where
  hdrunk : Nat
  version : List Nat
  encoding : Nat
  blocksize : Nat
  use64bit : Bool
  nrdeleted : Nat
  firstdeleted : Nat
  tadidx : List (Nat × Nat × Nat)
  dat : List Nat
deriving Repr

/-- Datafile.datsize: `dat.seek(0, SEEK_END); dat.tell()`. -/
def Datafile.datsize (df : Datafile) : Nat := df.dat.length

/-- Datafile.nrofrecords. -/
def Datafile.nrofrecords (df : Datafile) : Nat := df.tadidx.length

/-- Datafile.readdata: `dat.seek(ofs); dat.read(size)`. -/
def readdata (df : Datafile) (ofs size : Nat) : List Nat :=
  (df.dat.drop ofs).take size

/-- the byte string `CroFile\0`. -/
def croMagic : List Nat := [0x43, 0x72, 0x6F, 0x46, 0x69, 0x6C, 0x65, 0x00]

/-- version byte strings appearing in `readdathdr`. -/
def v0102 : List Nat := [0x30, 0x31, 0x2E, 0x30, 0x32]

/-- version byte string `01.03`. -/
def v0103 : List Nat := [0x30, 0x31, 0x2E, 0x30, 0x33]

/-- version byte string `01.04`. -/
def v0104 : List Nat := [0x30, 0x31, 0x2E, 0x30, 0x34]

/-- version byte string `01.11`. -/
def v0111 : List Nat := [0x30, 0x31, 0x2E, 0x31, 0x31]

/-- parsed .dat header fields (struct.unpack "<8sH5sHH"). -/
structure DatHdr where
  hdrunk : Nat
  version : List Nat
  encoding : Nat
  blocksize : Nat
  use64bit : Bool
deriving Repr

/-- Datafile.readdathdr: read 19 bytes, unpack "<8sH5sHH" (struct.error when the
file is shorter), check the magic, set `use64bit`, reject version `01.11`.
No other version check is performed by the source. -/
def readdathdr (dat : List Nat) : Except Err DatHdr :=
  if dat.length < 19 then .error .structError
  else
    let magic := dat.take 8
    let hdrunk := leBytes ((dat.drop 8).take 2)
    let version := (dat.drop 10).take 5
    let encoding := leBytes ((dat.drop 15).take 2)
    let blocksize := leBytes ((dat.drop 17).take 2)
    if magic ≠ croMagic then .error .notCrofile
    else if version = v0111 then .error .v0111
    else .ok ⟨hdrunk, version, encoding, blocksize, version = v0103⟩

/-- one descriptor of the .tad index: 16 bytes "<QLL" in 64-bit mode, 12 bytes
"<LLL" in 32-bit mode, at entry `i` of `indexdata`. -/
def tadEntry (use64bit : Bool) (indexdata : List Nat) (i : Nat) : Nat × Nat × Nat :=
  if use64bit then
    (leBytes ((indexdata.drop (16 * i)).take 8),
     leBytes ((indexdata.drop (16 * i + 8)).take 4),
     leBytes ((indexdata.drop (16 * i + 12)).take 4))
  else
    (leBytes ((indexdata.drop (12 * i)).take 4),
     leBytes ((indexdata.drop (12 * i + 4)).take 4),
     leBytes ((indexdata.drop (12 * i + 8)).take 4))

/-- Datafile.readtad: 8-byte header "<2L" (struct.error when shorter), then the
descriptor array; a trailing partial descriptor only warns and is discarded. -/
def readtad (use64bit : Bool) (tad : List Nat) :
    Except Err (Nat × Nat × List (Nat × Nat × Nat)) :=
  if tad.length < 8 then .error .structError
  else
    let nrdeleted := leBytes (tad.take 4)
    let firstdeleted := leBytes ((tad.drop 4).take 4)
    let indexdata := tad.drop 8
    let w := if use64bit then 16 else 12
    .ok (nrdeleted, firstdeleted,
      (List.range (indexdata.length / w)).map (tadEntry use64bit indexdata))

/-- Datafile.__init__: readdathdr, then readtad, then datsize; the first
raised exception propagates. -/
def mkDatafile (dat tad : List Nat) : Except Err Datafile :=
  match readdathdr dat with
  | .error e => .error e
  | .ok h =>
    match readtad h.use64bit tad with
    | .error e => .error e
    | .ok t =>
      .ok ⟨h.hdrunk, h.version, h.encoding, h.blocksize, h.use64bit, t.1, t.2.1, t.2.2, dat⟩

/-- Python list subscript `l[i]` for a possibly negative `Int` index:
`l[i]` for `0 ≤ i`, `l[len l + i]` for negative `i` when `0 ≤ len l + i`,
IndexError (`none`) otherwise. -/
def pyGet {α : Type} (l : List α) (i : Int) : Option α :=
  if 0 ≤ i then l.get? i.toNat
  else if 0 ≤ (l.length : Int) + i then l.get? ((l.length : Int) + i).toNat
  else none

/-- the `while len(encdat) < extlen` loop of Datafile.readrec (fueled): read
`blocksize` bytes at `extofs`, unpack the next pointer with "<L" on `dat[:4]`
(struct.error when `dat` has fewer than 4 bytes — `readrec` has no 64-bit
branch here), append `dat[4:]`.  `none` means the fuel ran out before the loop
finished. -/
def extLoop (df : Datafile) (extlen : Nat) :
    Nat → Nat → List Nat → Option (Except Err (List Nat))
  | 0, _, _ => none
  | fuel + 1, extofs, encdat =>
    if encdat.length < extlen then
      match unpack4 ((readdata df extofs df.blocksize).take 4) with
      | none => some (.error .structError)
      | some extofs2 =>
          extLoop df extlen fuel extofs2 (encdat ++ (readdata df extofs df.blocksize).drop 4)
    else some (.ok encdat)

/-- big-step relation of the same `while` loop of Datafile.readrec:
`ExtLoop df extlen extofs encdat r` holds when the loop, started with next
pointer `extofs` and accumulated payload `encdat`, terminates with outcome `r`.
A diverging loop is related to no outcome at all. -/
inductive ExtLoop (df : Datafile) (extlen : Nat) : Nat → List Nat → Except Err (List Nat) → Prop
  | done (extofs encdat) (h : ¬ encdat.length < extlen) :
      ExtLoop df extlen extofs encdat (.ok encdat)
  | fail (extofs encdat) (h : encdat.length < extlen)
      (hu : unpack4 ((readdata df extofs df.blocksize).take 4) = none) :
      ExtLoop df extlen extofs encdat (.error .structError)
  | step (extofs encdat extofs2 r) (h : encdat.length < extlen)
      (hu : unpack4 ((readdata df extofs df.blocksize).take 4) = some extofs2)
      (next : ExtLoop df extlen extofs2 (encdat ++ (readdata df extofs df.blocksize).drop 4) r) :
      ExtLoop df extlen extofs encdat r

/-- chunk walk of Datafile.iscompressed (fueled; the loop advances by at least
2 per step, so `data.length` steps always suffice — see `walkChunks_iff_valid`):
`while o < len(data) - 3`: unpack ">HH" at `o`, require the flag to be 0x800 or
0x008, advance by `size + 2`.  Falling out of the loop returns True regardless
of where `o` landed. -/
def walkChunks (data : List Nat) : Nat → Nat → Bool
  | 0, _ => true
  | fuel + 1, o =>
    if o < data.length - 3 then
      if be16 data (o + 2) = 0x800 ∨ be16 data (o + 2) = 0x008 then
        walkChunks data fuel (o + be16 data o + 2)
      else false
    else true

/-- Datafile.iscompressed: at least 11 bytes, ending in `00 00 02`, and the
chunk walk from offset 0 does not hit a bad flag.  Python returns `None` for
the failing cases and `True` on success; both are modelled as `Bool`. -/
def iscompressed (data : List Nat) : Bool :=
  if data.length < 11 then false
  else if data.drop (data.length - 3) ≠ [0, 0, 2] then false
  else walkChunks data data.length 0

/-- Datafile.readrec.  `kod` stands for the external `koddecode` (module
`koddecoder`, not part of the sources) and `decomp` for `Datafile.decompress`
(whose body calls external `zlib` inflation); both are passed as parameters so
that theorems can quantify over them.  The outer `Option` is the fuel of the
extension-chain loop (`none` = the loop was still running); the inner `Option`
is Python's `None` for a deleted record. -/
def readrec (kod : Int → List Nat → List Nat) (decomp : List Nat → List Nat)
    (df : Datafile) (fuel : Nat) (idx : Int) :
    Option (Except Err (Option (List Nat))) :=
  if idx = 0 then some (.error .invalidIndex)
  else
    match pyGet df.tadidx (idx - 1) with
    | none => some (.error .invalidIndex)
    | some (ofs, lnf, _chk) =>
      if lnf = 0xFFFFFFFF then some (.ok none)
      else
        let flags := lnf >>> 24
        let ln := lnf &&& 0xFFFFFFF
        let dat := readdata df ofs ln
        let encRes : Option (Except Err (List Nat)) :=
          if dat.length = 0 then some (.ok dat)
          else if flags = 0 then
            if dat.length < 8 then some (.error .structError)
            else
              let extofs := leBytes (dat.take 4)
              let extlen := leBytes ((dat.drop 4).take 4)
              (extLoop df extlen fuel extofs (dat.drop 8)).map
                (fun r => r.map (fun e => e.take extlen))
          else some (.ok dat)
        match encRes with
        | none => none
        | some (.error e) => some (.error e)
        | some (.ok encdat0) =>
          let encdat1 := if df.encoding &&& 1 = 1 then kod idx encdat0 else encdat0
          let encdat2 := if iscompressed encdat1 then decomp encdat1 else encdat1
          some (.ok (some encdat2))

/-- the extension-chain loop of Datafile.dump (fueled).  Unlike `readrec`'s
loop it appends the `(extofs, extofs + blocksize)` range of every block it
reads and it honours `use64bit`: the embedded next pointer is unpacked with
"<Q" from `dat[:8]` (64-bit) or "<L" from `dat[:4]` (32-bit), and the
remainder of the block is appended to the payload. -/
def dumpExt (df : Datafile) (extlen : Nat) :
    Nat → Nat → List Nat → List (Nat × Nat) →
    Option (Except Err (List Nat × List (Nat × Nat)))
  | 0, _, _, _ => none
  | fuel + 1, extofs, encdat, rs =>
    if encdat.length < extlen then
      let dat := readdata df extofs df.blocksize
      let rs2 := rs ++ [(extofs, extofs + df.blocksize)]
      let psz := if df.use64bit then 8 else 4
      if (dat.take psz).length = psz then
        dumpExt df extlen fuel (leBytes (dat.take psz)) (encdat ++ dat.drop psz) rs2
      else some (.error .structError)
    else some (.ok (encdat, rs))

/-- per-descriptor body of Datafile.dump for a non-deleted descriptor
`(ofs, lnf, chk)`: returns the decoded-before-KOD payload `encdat`, the
overshoot `tail`, and the list of `(start, end)` byte ranges touched.  The
printing, KOD decoding and decompression of dump do not affect any of the
three and are omitted.  In 64-bit mode the primary fragment starts with a
12-byte "<QL" header, in 32-bit mode with an 8-byte "<LL" header (struct.error
when the fragment is shorter). -/
def dumpRecord (df : Datafile) (fuel : Nat) (ofs lnf : Nat) :
    Option (Except Err (List Nat × List Nat × List (Nat × Nat))) :=
  let flags := lnf >>> 24
  let ln := lnf &&& 0xFFFFFFF
  let dat := readdata df ofs ln
  let rs : List (Nat × Nat) := [(ofs, ofs + ln)]
  if dat.length = 0 then some (.ok (dat, [], rs))
  else if flags = 0 then
    if df.use64bit then
      if dat.length < 12 then some (.error .structError)
      else
        let extofs := leBytes (dat.take 8)
        let extlen := leBytes ((dat.drop 8).take 4)
        match dumpExt df extlen fuel extofs (dat.drop 12) rs with
        | none => none
        | some (.error e) => some (.error e)
        | some (.ok (encdat, rs2)) =>
          some (.ok (encdat.take extlen, encdat.drop extlen, rs2))
    else
      if dat.length < 8 then some (.error .structError)
      else
        let extofs := leBytes (dat.take 4)
        let extlen := leBytes ((dat.drop 4).take 4)
        match dumpExt df extlen fuel extofs (dat.drop 8) rs with
        | none => none
        | some (.error e) => some (.error e)
        | some (.ok (encdat, rs2)) =>
          some (.ok (encdat.take extlen, encdat.drop extlen, rs2))
  else some (.ok (dat, [], rs))

/-- iteration of Datafile.dump over the descriptor table, accumulating the
touched ranges; a deleted descriptor (`0xFFFFFFFF`) contributes none. -/
def dumpRangesGo (df : Datafile) (fuel : Nat) :
    List (Nat × Nat × Nat) → List (Nat × Nat) → Option (Except Err (List (Nat × Nat)))
  | [], acc => some (.ok acc)
  | (ofs, lnf, _chk) :: rest, acc =>
    if lnf = 0xFFFFFFFF then dumpRangesGo df fuel rest acc
    else
      match dumpRecord df fuel ofs lnf with
      | none => none
      | some (.error e) => some (.error e)
      | some (.ok (_, _, rs)) => dumpRangesGo df fuel rest (acc ++ rs)

/-- the list of used byte ranges Datafile.dump builds in its `ranges` variable. -/
def dumpRanges (df : Datafile) (fuel : Nat) : Option (Except Err (List (Nat × Nat))) :=
  dumpRangesGo df fuel df.tadidx []

/-- Python `sorted` comparison on the `(start, end, desc)` tuples of dump's
`ranges` list, restricted to `(start, end)`: lexicographic.  The `desc` string
only breaks ties between ranges with equal `(start, end)`, and
`enumunreferenced` reads nothing but `(start, end)`, so dropping `desc` is
observationally faithful. -/
def pairLe (a b : Nat × Nat) : Prop := a.1 < b.1 ∨ (a.1 = b.1 ∧ a.2 ≤ b.2)

instance : DecidableRel pairLe := fun a b =>
  inferInstanceAs (Decidable (a.1 < b.1 ∨ (a.1 = b.1 ∧ a.2 ≤ b.2)))

instance : IsTotal (Nat × Nat) pairLe :=
  ⟨by intro a b; unfold pairLe; omega⟩

instance : IsTrans (Nat × Nat) pairLe :=
  ⟨by intro a b c; unfold pairLe; omega⟩

/-- loop of Datafile.enumunreferenced over the sorted ranges: starting from
cursor `o`, yield `(o, start - o)` before every range whose `start` exceeds the
cursor, move the cursor to the range's `end`, and finally yield the gap up to
`filesize`. -/
def gapsFrom (filesize : Nat) : Nat → List (Nat × Nat) → List (Nat × Nat)
  | o, [] => if o < filesize then [(o, filesize - o)] else []
  | o, (s, e) :: rest => (if o < s then [(o, s - o)] else []) ++ gapsFrom filesize e rest

/-- Datafile.enumunreferenced: sort the used ranges, then enumerate the
`(offset, length)` gaps between them and after the last one. -/
def enumunreferenced (ranges : List (Nat × Nat)) (filesize : Nat) : List (Nat × Nat) :=
  gapsFrom filesize 0 (List.insertionSort pairLe ranges)

/-- chunk walk as the claim C4 words it (spec-side definition, for the
refutation only): the walk must land *exactly* on `len(data) - 3`; a walk that
overshoots past `len(data) - 3` returns false.  Fueled like `walkChunks`;
`data.length` steps always suffice since the walk advances by at least 2. -/
def walkExact (data : List Nat) : Nat → Nat → Bool
  | 0, _ => false
  | fuel + 1, o =>
    if o = data.length - 3 then true
    else if data.length - 3 < o then false
    else if be16 data (o + 2) = 0x800 ∨ be16 data (o + 2) = 0x008 then
      walkExact data fuel (o + be16 data o + 2)
    else false

/-- `is_compressed` as claim C4 words it (spec-side definition): length at
least 11, suffix `00 00 02`, and the chunk walk lands exactly on
`len(data) - 3`. -/
def iscompressedClaim (data : List Nat) : Bool :=
  if data.length < 11 then false
  else if data.drop (data.length - 3) ≠ [0, 0, 2] then false
  else walkExact data data.length 0

/-- fuel-free description of the walk `iscompressed` actually performs: from
offset `o`, either the loop guard already fails (any `o ≥ len - 3`, overshoot
included), or the flag at `o + 2` is `0x800` or `0x008` and the walk continues
at `o + size + 2`. -/
inductive ValidWalk (data : List Nat) : Nat → Prop
  | done (o) (h : ¬ o < data.length - 3) : ValidWalk data o
  | step (o) (h : o < data.length - 3)
      (hflag : be16 data (o + 2) = 0x800 ∨ be16 data (o + 2) = 0x008)
      (next : ValidWalk data (o + be16 data o + 2)) : ValidWalk data o

theorem walkChunks_iff_valid (data : List Nat) :
    ∀ fuel o, data.length ≤ 2 * fuel + o + 3 →
      (walkChunks data fuel o = true ↔ ValidWalk data o) := by
  intro fuel
  induction fuel with
  | zero =>
    intro o h
    simp only [walkChunks]
    constructor
    · intro _; exact ValidWalk.done o (by omega)
    · intro _; trivial
  | succ fuel ih =>
    intro o h
    simp only [walkChunks]
    by_cases hg : o < data.length - 3
    · simp only [if_pos hg]
      by_cases hf : be16 data (o + 2) = 0x800 ∨ be16 data (o + 2) = 0x008
      · simp only [if_pos hf]
        have ih2 := ih (o + be16 data o + 2) (by omega)
        constructor
        · intro hw; exact ValidWalk.step o hg hf (ih2.mp hw)
        · intro hv
          cases hv with
          | done _ h2 => exact absurd hg h2
          | step _ _ _ next => exact ih2.mpr next
      · simp only [if_neg hf]
        constructor
        · intro hw; cases hw
        · intro hv
          cases hv with
          | done _ h2 => exact absurd hg h2
          | step _ _ hflag _ => exact absurd hflag hf
    · simp only [if_neg hg]
      constructor
      · intro _; exact ValidWalk.done o hg
      · intro _; trivial

/-- a buffer on which the chunk walk of `iscompressed` overshoots: one chunk of
size 0x0A with flag 0x0800 jumps the cursor from 0 straight past
`len - 3 = 8` to 12. -/
def exC4 : List Nat := [0x00, 0x0A, 0x08, 0x00, 0, 0, 0, 0, 0x00, 0x00, 0x02]

/-- C4: refuted as stated.  `iscompressed` accepts `exC4` although its chunk
walk does not land exactly on `len(data) - 3`: from offset 0 the single step
reads size 0x0A and jumps to offset 12, past 8.  The claim's own reading
(`iscompressedClaim`, exact landing required) rejects the buffer, so the code
and the claim disagree. -/
theorem c4_counterexample :
    iscompressed exC4 = true ∧ iscompressedClaim exC4 = false ∧
      0 + be16 exC4 0 + 2 ≠ exC4.length - 3 ∧ exC4.length - 3 < 0 + be16 exC4 0 + 2 := by
  refine ⟨by decide, by decide, by decide, by decide⟩

/-- C4 amended: `iscompressed data` is true iff `data` has at least 11 bytes,
ends with `00 00 02`, and the chunk walk from offset 0 — big-endian 16-bit
`size` and `flag`, `flag` required to be 0x0800 or 0x0008, advancing by
`size + 2` — exits the loop by reaching *any* offset `≥ len(data) - 3`
(`ValidWalk`); landing exactly on `len(data) - 3` is not required, an
overshooting walk is accepted as well. -/
theorem c4_theorem (data : List Nat) :
    iscompressed data = true ↔
      11 ≤ data.length ∧ data.drop (data.length - 3) = [0, 0, 2] ∧ ValidWalk data 0 := by
  unfold iscompressed
  by_cases h1 : data.length < 11
  · simp only [if_pos h1]
    constructor
    · intro h; cases h
    · intro ⟨h, _⟩; omega
  · simp only [if_neg h1]
    by_cases h2 : data.drop (data.length - 3) = [0, 0, 2]
    · rw [if_neg (by simpa using h2)]
      rw [walkChunks_iff_valid data data.length 0 (by omega)]
      constructor
      · intro h; exact ⟨by omega, h2, h⟩
      · intro ⟨_, _, h⟩; exact h
    · rw [if_pos (by simpa using h2)]
      constructor
      · intro h; cases h
      · intro ⟨_, h, _⟩; exact absurd h h2

/-- a Datafile with one inline descriptor whose `length_and_flags` is
`0x0100000B`: flags byte 0x01, bit 24 set, and a 20-byte container. -/
def dfC1 : Datafile :=
  ⟨0, v0102, 0, 0x40, false, 0, 0, [(0, 0x0100000B, 0)],
   [0, 1, 2, 3, 4, 5, 6, 7, 8, 9, 10, 11, 12, 13, 14, 15, 16, 17, 18, 19]⟩

/-- C1: refuted as stated.  The descriptor `0x0100000B` has bits 24..27
non-zero, and the claim says `readrec` reads
`length_and_flags & 0x00FF_FFFF = 11` bytes at the offset.  The code masks
with `0xFFFFFFF` (28 bits) instead, requests `0x0100000B` bytes and gets the
whole 20-byte container back — even though the claimed 11-byte read would have
fit.  `readrec` returns all 20 bytes, not 11. -/
theorem c1_counterexample :
    readrec (fun _ d => d) (fun d => d) dfC1 1 1 =
      some (.ok (some [0, 1, 2, 3, 4, 5, 6, 7, 8, 9, 10, 11, 12, 13, 14, 15, 16, 17, 18, 19])) ∧
    (0x0100000B >>> 24) &&& 0xF ≠ 0 ∧
    (20 : Nat) ≠ 0x0100000B &&& 0xFFFFFF := by
  refine ⟨by decide, by decide, by decide⟩

/-- C1 amended: for every non-deleted descriptor, `readrec` computes the flags
as `length_and_flags >>> 24` (high 8 bits, as claimed) but the record length as
`length_and_flags &&& 0x0FFF_FFFF` — the low 28 bits, not the claimed low 24 —
and the number of bytes actually read at `offset` is that 28-bit length clamped
to the bytes available in the container.  The two masks agree exactly when
bits 24..27 of `length_and_flags` are zero.  (Stated for an inline record not
recognized as compressed, with the KOD bit clear, so that the returned buffer
is the raw bytes read.) -/
theorem c1_theorem (kod : Int → List Nat → List Nat) (decomp : List Nat → List Nat)
    (df : Datafile) (fuel : Nat) (idx : Int) (ofs lnf chk : Nat)
    (hidx : idx ≠ 0) (hget : pyGet df.tadidx (idx - 1) = some (ofs, lnf, chk))
    (hdel : lnf ≠ 0xFFFFFFFF) (hflags : lnf >>> 24 ≠ 0)
    (henc : df.encoding &&& 1 = 0)
    (hcomp : iscompressed (readdata df ofs (lnf &&& 0xFFFFFFF)) = false) :
    readrec kod decomp df fuel idx =
      some (.ok (some (readdata df ofs (lnf &&& 0xFFFFFFF)))) ∧
    (readdata df ofs (lnf &&& 0xFFFFFFF)).length =
      min (lnf &&& 0xFFFFFFF) (df.datsize - ofs) := by
  constructor
  · unfold readrec
    rw [if_neg hidx, hget]
    simp only [if_neg hdel, if_neg hflags, ite_self, henc, hcomp]
    simp [hcomp]
  · simp [readdata, Datafile.datsize]

/-- C1 witness: a concrete inline record (descriptor `0x1000_0003`, flags 0x10,
28-bit length 3) on which `c1_theorem` applies. -/
def dfC1w : Datafile :=
  ⟨0, v0102, 0, 0x40, false, 0, 0, [(0, 0x10000003, 0)], [5, 6, 7, 8]⟩

/-- witness for `c1_theorem` at `dfC1w`, index 1. -/
theorem c1_witness :
    readrec (fun _ d => d) (fun d => d) dfC1w 1 1 =
      some (.ok (some (readdata dfC1w 0 (0x10000003 &&& 0xFFFFFFF)))) ∧
    (readdata dfC1w 0 (0x10000003 &&& 0xFFFFFFF)).length =
      min (0x10000003 &&& 0xFFFFFFF) (dfC1w.datsize - 0) :=
  c1_theorem (fun _ d => d) (fun d => d) dfC1w 1 1 0 0x10000003 0
    (by decide) (by decide) (by decide) (by decide) (by decide) (by decide)

/-- a 64-bit Datafile (version `01.03`) with one extended record (flags 0,
length 16) whose primary fragment distinguishes the two possible parses: as
"<LL" it reads `(next=0, total=4)`, as "<QL" it reads
`(next=0x4_0000_0000, total=0)`. -/
def dfC2 : Datafile :=
  ⟨0, v0103, 0, 0x40, true, 0, 0, [(0, 0x10, 0)],
   [0, 0, 0, 0, 4, 0, 0, 0, 0, 0, 0, 0, 0xAA, 0xBB, 0xCC, 0xDD]⟩

/-- C2: the code contradicts itself on 64-bit extended records.  `readrec`
unpacks the primary-fragment header with "<LL" (8 bytes) and strips 4-byte
next pointers even when `use64bit` holds, so on `dfC2` it returns the payload
`[0,0,0,0]` (32-bit parse: total length 4, skip 8).  `dump` — the spec's
"same machinery" — honours `use64bit`, unpacks "<QL" (12 bytes) and returns
the payload `[]` with tail `[0xAA,0xBB,0xCC,0xDD]`.  The claim describes the
64-bit parse, which `readrec` does not perform. -/
theorem c2_theorem :
    readrec (fun _ d => d) (fun d => d) dfC2 2 1 = some (.ok (some [0, 0, 0, 0])) ∧
    dumpRecord dfC2 2 0 0x10 =
      some (.ok ([], [0xAA, 0xBB, 0xCC, 0xDD], [(0, 16)])) ∧
    ([0, 0, 0, 0] : List Nat) ≠ [] := by
  refine ⟨by decide, by decide, by decide⟩

/-- a 19-byte container header whose version field is `01.05` — not in the
accepted set — followed by an empty 8-byte index. -/
def datC3 : List Nat :=
  croMagic ++ [0, 0] ++ [0x30, 0x31, 0x2E, 0x30, 0x35] ++ [0, 0] ++ [0x40, 0]

/-- the index bytes paired with `datC3`: an empty descriptor table. -/
def tadC3 : List Nat := [0, 0, 0, 0, 0, 0, 0, 0]

/-- C3: refuted as stated.  Construction from a container whose version string
is `01.05` — which is none of `01.02`, `01.03`, `01.04`, `01.11` — succeeds:
`readdathdr` only checks the magic and rejects `01.11`; there is no
"unknown format" / UnsupportedVersion rejection in the code. -/
theorem c3_counterexample :
    (mkDatafile datC3 tadC3).isOk = true ∧
    (datC3.drop 10).take 5 ≠ v0102 ∧ (datC3.drop 10).take 5 ≠ v0103 ∧
    (datC3.drop 10).take 5 ≠ v0104 ∧ (datC3.drop 10).take 5 ≠ v0111 := by
  refine ⟨by decide, by decide, by decide, by decide, by decide⟩

/-- C3 amended: construction checks only the magic and the version `01.11`.
For every container of at least 19 bytes with magic `CroFile\0` and every
index of at least 8 bytes, construction succeeds if and only if the 5-byte
version field differs from `01.11` (on `01.11` it fails with the explicit
v01.11 error); no other version string is rejected, and `01.03` merely selects
64-bit offsets. -/
theorem c3_theorem (dat tad : List Nat)
    (hlen : 19 ≤ dat.length) (hmagic : dat.take 8 = croMagic) (htad : 8 ≤ tad.length) :
    ((mkDatafile dat tad).isOk = true ↔ (dat.drop 10).take 5 ≠ v0111) ∧
    ((dat.drop 10).take 5 = v0111 → mkDatafile dat tad = .error .v0111) := by
  unfold mkDatafile readdathdr readtad
  rw [if_neg (by omega), if_neg (by simpa using hmagic)]
  by_cases hv : (dat.drop 10).take 5 = v0111
  · rw [if_pos hv]
    refine ⟨?_, fun _ => rfl⟩
    constructor
    · intro h; cases h
    · intro h; exact absurd hv h
  · rw [if_neg hv]
    dsimp only
    rw [if_neg (show ¬ tad.length < 8 by omega)]
    refine ⟨?_, fun h => absurd h hv⟩
    constructor
    · intro _; exact hv
    · intro _; rfl

/-- witness for `c3_theorem` at the concrete accepted pair `(datC3, tadC3)`. -/
theorem c3_witness :
    ((mkDatafile datC3 tadC3).isOk = true ↔ (datC3.drop 10).take 5 ≠ v0111) ∧
    ((datC3.drop 10).take 5 = v0111 → mkDatafile datC3 tadC3 = .error .v0111) :=
  c3_theorem datC3 tadC3 (by decide) (by decide) (by decide)

theorem extLoop_ne_invalidIndex (df : Datafile) (extlen : Nat) :
    ∀ fuel extofs encdat,
      extLoop df extlen fuel extofs encdat ≠ some (.error .invalidIndex) := by
  intro fuel
  induction fuel with
  | zero => intro _ _ h; simp [extLoop] at h
  | succ fuel ih =>
    intro extofs encdat
    simp only [extLoop]
    split
    · split
      · intro h; simp at h
      · exact ih _ _
    · intro h; simp at h

theorem optmap_error_invalidIndex (x : Option (Except Err (List Nat)))
    (f : List Nat → List Nat)
    (h : x.map (fun r => r.map f) = some (.error .invalidIndex)) :
    x = some (.error .invalidIndex) := by
  cases x with
  | none => simp at h
  | some r =>
    cases r with
    | error e => simp [Except.map] at h; simp [h]
    | ok v => simp [Except.map] at h

/-- once the descriptor lookup has succeeded, `readrec` can no longer raise an
index error: every later failure is a struct.error (or running out of fuel). -/
theorem readrec_ne_invalidIndex (kod : Int → List Nat → List Nat)
    (decomp : List Nat → List Nat) (df : Datafile) (fuel : Nat) (idx : Int)
    (ofs lnf chk : Nat)
    (hidx : idx ≠ 0) (hget : pyGet df.tadidx (idx - 1) = some (ofs, lnf, chk)) :
    readrec kod decomp df fuel idx ≠ some (.error .invalidIndex) := by
  unfold readrec
  rw [if_neg hidx, hget]
  dsimp only
  by_cases hdel : lnf = 0xFFFFFFFF
  · rw [if_pos hdel]; simp
  · rw [if_neg hdel]
    split
    · simp
    · next e heq =>
      intro hc
      simp only [Option.some.injEq, Except.error.injEq] at hc
      subst hc
      revert heq
      split
      · simp
      · split
        · split
          · simp
          · intro heq
            exact extLoop_ne_invalidIndex df _ fuel _ _ (optmap_error_invalidIndex _ _ heq)
        · simp
    · simp

/-- C7: `readrec` raises an index error (the spec's *InvalidIndex*: the
`recnum must be a positive number` raise for index 0, the `IndexError` of
`tadidx[idx - 1]` for an index past the table) when the index is 0 or exceeds
`nrofrecords()`, and returns Python `None` — not an error — for an in-range
index whose descriptor is the deleted sentinel `0xFFFFFFFF`. -/
theorem c7_theorem (kod : Int → List Nat → List Nat) (decomp : List Nat → List Nat)
    (df : Datafile) (fuel : Nat) (idx : Int) (ofs chk : Nat) :
    (idx = 0 → readrec kod decomp df fuel idx = some (.error .invalidIndex)) ∧
    ((df.nrofrecords : Int) < idx →
      readrec kod decomp df fuel idx = some (.error .invalidIndex)) ∧
    (1 ≤ idx → idx ≤ (df.nrofrecords : Int) →
      df.tadidx.get? (idx - 1).toNat = some (ofs, 0xFFFFFFFF, chk) →
      readrec kod decomp df fuel idx = some (.ok none)) := by
  refine ⟨?_, ?_, ?_⟩
  · intro h
    unfold readrec
    rw [if_pos h]
  · intro h
    have hlen : (df.tadidx.length : Int) < idx := by
      simpa [Datafile.nrofrecords] using h
    unfold readrec
    rw [if_neg (by omega)]
    have hget : pyGet df.tadidx (idx - 1) = none := by
      unfold pyGet
      rw [if_pos (by omega)]
      exact List.get?_eq_none.mpr (by omega)
    rw [hget]
  · intro h1 h2 hdesc
    unfold readrec
    rw [if_neg (by omega)]
    have hget : pyGet df.tadidx (idx - 1) = some (ofs, 0xFFFFFFFF, chk) := by
      unfold pyGet
      rw [if_pos (by omega)]
      exact hdesc
    rw [hget]
    dsimp only
    rw [if_pos rfl]

/-- witness for `c7_theorem`: a two-descriptor Datafile; index 0 and index 5
raise, index 2 (deleted sentinel) returns `None`. -/
def dfC7 : Datafile :=
  ⟨0, v0102, 0, 0x40, false, 0, 0, [(0, 5, 0), (0, 0xFFFFFFFF, 0)], [1, 2, 3]⟩

/-- witness for `c7_theorem` at `dfC7`. -/
theorem c7_witness :
    readrec (fun _ d => d) (fun d => d) dfC7 1 0 = some (.error .invalidIndex) ∧
    readrec (fun _ d => d) (fun d => d) dfC7 1 5 = some (.error .invalidIndex) ∧
    readrec (fun _ d => d) (fun d => d) dfC7 1 2 = some (.ok none) :=
  ⟨(c7_theorem (fun _ d => d) (fun d => d) dfC7 1 0 0 0).1 rfl,
   (c7_theorem (fun _ d => d) (fun d => d) dfC7 1 5 0 0).2.1 (by decide),
   (c7_theorem (fun _ d => d) (fun d => d) dfC7 1 2 0 0).2.2 (by decide) (by decide) (by decide)⟩

/-- a Datafile with the KOD bit set (`encoding = 1`) and one descriptor whose
length field is 0. -/
def dfC8 : Datafile :=
  ⟨0, v0102, 1, 0x40, false, 0, 0, [(0, 0, 0)], [1, 2, 3]⟩

/-- C8: refuted as stated.  For a zero-length record the code does *not* skip
the KOD call: `readrec` still evaluates `koddecode(idx, b"")` when the
encoding bit is set, so the result depends on the KOD function — with a
(contract-violating) `kod` that maps every input to `[7]`, `readrec` returns
`[7]`, not the empty buffer.  Had the call been skipped, the result would be
`[]` for every `kod`. -/
theorem c8_counterexample :
    readrec (fun _ _ => [7]) (fun d => d) dfC8 1 1 = some (.ok (some [7])) ∧
    readrec (fun _ _ => []) (fun d => d) dfC8 1 1 = some (.ok (some [])) ∧
    ([7] : List Nat) ≠ [] := by
  refine ⟨by decide, by decide, by decide⟩

/-- C8 amended: for every non-deleted descriptor whose 28-bit length field is
0, `readrec` returns the empty byte buffer and applies no decompression (the
result does not depend on `decomp`), but the KOD transformation is *invoked*
on the empty buffer when the encoding bit is set; because any KOD function
satisfying the spec's length-preservation contract maps `b""` to `b""`
(hypothesis `hkod`), the returned buffer is still empty regardless of the
encoding bit. -/
theorem c8_theorem (kod : Int → List Nat → List Nat) (decomp : List Nat → List Nat)
    (df : Datafile) (fuel : Nat) (idx : Int) (ofs lnf chk : Nat)
    (hidx : idx ≠ 0) (hget : pyGet df.tadidx (idx - 1) = some (ofs, lnf, chk))
    (hdel : lnf ≠ 0xFFFFFFFF) (hln : lnf &&& 0xFFFFFFF = 0)
    (hkod : kod idx [] = []) :
    readrec kod decomp df fuel idx = some (.ok (some [])) := by
  unfold readrec
  rw [if_neg hidx, hget]
  dsimp only
  rw [if_neg hdel, hln]
  have hdat : readdata df ofs 0 = [] := by simp [readdata]
  rw [hdat]
  by_cases he : df.encoding &&& 1 = 1 <;> simp [he, hkod, iscompressed]

/-- witness for `c8_theorem` at `dfC8` with a length-preserving KOD stub. -/
theorem c8_witness :
    readrec (fun _ d => d.reverse) (fun d => d) dfC8 1 1 = some (.ok (some [])) :=
  c8_theorem (fun _ d => d.reverse) (fun d => d) dfC8 1 1 0 0 0
    (by decide) (by decide) (by decide) (by decide) (by decide)

/-- C10: for a negative index `idx` with `-(nrofrecords - 1) ≤ idx ≤ -1`,
`readrec` does not raise: Python's `tadidx[idx - 1]` wraps around to position
`nrofrecords + idx - 1`, the record found there is decoded, and the KOD
transformation is keyed by the negative `idx` itself (shown for an inline,
non-deleted, non-compressed record with the KOD bit set). -/
theorem c10_theorem (kod : Int → List Nat → List Nat) (decomp : List Nat → List Nat)
    (df : Datafile) (fuel : Nat) (idx : Int) (ofs lnf chk : Nat)
    (h1 : 1 - (df.nrofrecords : Int) ≤ idx) (h2 : idx ≤ -1)
    (hdesc : df.tadidx.get? ((df.nrofrecords : Int) + idx - 1).toNat = some (ofs, lnf, chk)) :
    pyGet df.tadidx (idx - 1) =
      df.tadidx.get? ((df.nrofrecords : Int) + idx - 1).toNat ∧
    readrec kod decomp df fuel idx ≠ some (.error .invalidIndex) ∧
    (lnf ≠ 0xFFFFFFFF → lnf >>> 24 ≠ 0 → df.encoding &&& 1 = 1 →
      iscompressed (kod idx (readdata df ofs (lnf &&& 0xFFFFFFF))) = false →
      readrec kod decomp df fuel idx =
        some (.ok (some (kod idx (readdata df ofs (lnf &&& 0xFFFFFFF)))))) := by
  have hlen : df.nrofrecords = df.tadidx.length := rfl
  have hpg : pyGet df.tadidx (idx - 1) =
      df.tadidx.get? ((df.nrofrecords : Int) + idx - 1).toNat := by
    unfold pyGet
    rw [if_neg (by omega), if_pos (by omega)]
    congr 1
    omega
  refine ⟨hpg, ?_, ?_⟩
  · exact readrec_ne_invalidIndex kod decomp df fuel idx ofs lnf chk (by omega)
      (hpg.trans hdesc)
  · intro hdel hflags henc hcomp
    unfold readrec
    rw [if_neg (by omega), hpg.trans hdesc]
    dsimp only
    rw [if_neg hdel]
    simp only [if_neg hflags, ite_self, henc, hcomp]
    simp [hcomp]

/-- a three-record Datafile with the KOD bit set, for the `c10_theorem`
witness: index -1 resolves to descriptor position 1. -/
def dfC10 : Datafile :=
  ⟨0, v0102, 1, 0x40, false, 0, 0,
   [(0, 0x10000002, 0), (3, 0x10000003, 0), (6, 0x10000001, 0)],
   [10, 11, 12, 13, 14, 15, 16]⟩

/-- witness for `c10_theorem` at `dfC10`, index -1, with a KOD stub that tags
the record with its key so the keying is visible in the output. -/
theorem c10_witness :
    pyGet dfC10.tadidx (-1 - 1) =
      dfC10.tadidx.get? (((dfC10.nrofrecords : Int) + -1 - 1).toNat) ∧
    readrec (fun k d => if k = -1 then 100 :: d else d) (fun d => d) dfC10 1 (-1) ≠
      some (.error .invalidIndex) ∧
    ((0x10000003 : Nat) ≠ 0xFFFFFFFF → (0x10000003 : Nat) >>> 24 ≠ 0 →
      dfC10.encoding &&& 1 = 1 →
      iscompressed ((fun (k : Int) (d : List Nat) => if k = -1 then 100 :: d else d) (-1)
        (readdata dfC10 3 (0x10000003 &&& 0xFFFFFFF))) = false →
      readrec (fun k d => if k = -1 then 100 :: d else d) (fun d => d) dfC10 1 (-1) =
        some (.ok (some ((fun (k : Int) (d : List Nat) => if k = -1 then 100 :: d else d) (-1)
          (readdata dfC10 3 (0x10000003 &&& 0xFFFFFFF)))))) :=
  c10_theorem (fun k d => if k = -1 then 100 :: d else d) (fun d => d) dfC10 1 (-1)
    3 0x10000003 0 (by decide) (by decide) (by decide)

/-- a Datafile with `blocksize = 4` — equal to the 4-byte next pointer
`readrec` strips from every extension block — and one extended record whose
primary fragment points at a block that points back at itself: descriptor
`(0, 16, 0)` is never consulted by the loop here; the loop is started at
`extofs = 4` where the container holds the little-endian pointer 4. -/
def dfC5 : Datafile :=
  ⟨0, v0102, 0, 4, false, 0, 0, [(0, 16, 0)], [0, 0, 0, 0, 4, 0, 0, 0]⟩

/-- C5: refuted as stated.  With `blocksize = 4` every extension block is
consumed entirely by its own next pointer, so the loop accumulates nothing;
on `dfC5` (block at offset 4 pointing at itself, 16 payload bytes still
needed) the walk has *no* outcome at all — it diverges instead of raising
anything, and the code contains no MalformedArchive / blocksize check. -/
theorem c5_counterexample :
    extLoop dfC5 16 64 4 [] = none ∧ ¬ ∃ r, ExtLoop dfC5 16 4 [] r := by
  constructor
  · decide
  · rintro ⟨r, hr⟩
    have key : ∀ extofs encdat r, ExtLoop dfC5 16 extofs encdat r →
        extofs = 4 → encdat = [] → False := by
      intro a b r h
      induction h with
      | done extofs encdat h =>
        intro _ hnil
        subst hnil
        exact h (by decide)
      | fail extofs encdat h hu =>
        intro h4 hnil
        subst h4
        have hval : unpack4 ((readdata dfC5 4 dfC5.blocksize).take 4) = some 4 := by decide
        rw [hval] at hu
        cases hu
      | step extofs encdat extofs2 r h hu next ih =>
        intro h4 hnil
        subst h4; subst hnil
        have hval : unpack4 ((readdata dfC5 4 dfC5.blocksize).take 4) = some 4 := by decide
        rw [hval] at hu
        have h2 : extofs2 = 4 := by
          injection hu with hu2
          exact hu2.symm
        have hnil2 : ([] : List Nat) ++ (readdata dfC5 4 dfC5.blocksize).drop 4 = [] := by
          decide
        exact ih h2 hnil2
    exact key 4 [] r hr rfl rfl

/-- C5 amended: when `blocksize` is at most the 4-byte pointer size that
`readrec` always uses (it has no 64-bit branch, see C2), an extension chain
that still needs payload bytes makes no progress: every completed run of the
loop ends in a struct.error (short block read) — never in a MalformedArchive
error, which the code does not have — and runs that never hit a short read do
not terminate at all (`c5_counterexample`). -/
theorem c5_theorem (df : Datafile) (extlen extofs : Nat) (encdat : List Nat)
    (r : Except Err (List Nat))
    (hbs : df.blocksize ≤ 4) (hlt : encdat.length < extlen)
    (hrun : ExtLoop df extlen extofs encdat r) :
    r = .error .structError := by
  revert hlt
  induction hrun with
  | done extofs encdat h => intro hlt; exact absurd hlt h
  | fail extofs encdat h hu => intro _; rfl
  | step extofs encdat extofs2 r h hu next ih =>
    intro _
    apply ih
    have hrd : (readdata df extofs df.blocksize).length ≤ df.blocksize := by
      simp [readdata]
    simp only [List.length_append, List.length_drop]
    omega

/-- a Datafile whose container at offset 0 holds a 4-byte block that is
shorter than the 4 bytes its next-pointer unpack needs once `blocksize = 4`
reads run past the end: used to witness `c5_theorem`. -/
def dfC5w : Datafile :=
  ⟨0, v0102, 0, 4, false, 0, 0, [], [0, 0]⟩

/-- witness for `c5_theorem` at `dfC5w`: the block read at offset 0 returns
only 2 bytes, the "<L" unpack fails, the loop ends in struct.error. -/
theorem c5_witness :
    dfC5w.blocksize ≤ 4 ∧ ([] : List Nat).length < 5 ∧
    ExtLoop dfC5w 5 0 [] (.error .structError) ∧
    (Except.error Err.structError : Except Err (List Nat)) = .error .structError :=
  ⟨by decide, by decide, ExtLoop.fail 0 [] (by decide) (by decide),
   c5_theorem dfC5w 5 0 [] (.error .structError) (by decide) (by decide)
     (ExtLoop.fail 0 [] (by decide) (by decide))⟩

/-- C6: when the extension-chain loop completes with accumulated payload
`payload`, that payload is at least `total_length` (`extlen`) bytes long —
the loop only exits once enough bytes are gathered — and the buffer `readrec`
then keeps, `payload[:extlen]`, has length exactly `extlen`: the
`total_length` stored in the record's own header, any overshoot truncated. -/
theorem c6_theorem (df : Datafile) (extlen fuel extofs : Nat) (encdat payload : List Nat)
    (h : extLoop df extlen fuel extofs encdat = some (.ok payload)) :
    extlen ≤ payload.length ∧ (payload.take extlen).length = extlen := by
  have hle : extlen ≤ payload.length := by
    induction fuel generalizing extofs encdat with
    | zero => simp [extLoop] at h
    | succ fuel ih =>
      rw [extLoop] at h
      split at h
      · split at h
        · simp at h
        · exact ih _ _ h
      · next hguard =>
        simp only [Option.some.injEq, Except.ok.injEq] at h
        subst h
        omega
  refine ⟨hle, ?_⟩
  simp only [List.length_take]
  omega

/-- a Datafile with one extension block for the `c6_theorem` witness:
starting with 2 of 6 payload bytes, the block at offset 8 supplies a zero
next pointer and 4 payload bytes, completing the record exactly. -/
def dfC6w : Datafile :=
  ⟨0, v0102, 0, 8, false, 0, 0, [], [0, 0, 0, 0, 0, 0, 0, 0, 0, 0, 0, 0, 21, 22, 23, 24]⟩

/-- witness for `c6_theorem` at `dfC6w`. -/
theorem c6_witness :
    (6 : Nat) ≤ ([1, 2, 21, 22, 23, 24] : List Nat).length ∧
    (([1, 2, 21, 22, 23, 24] : List Nat).take 6).length = 6 :=
  c6_theorem dfC6w 6 2 8 [1, 2] [1, 2, 21, 22, 23, 24] (by decide)

/-- two `(start, end)` ranges occupy disjoint intervals: one ends before the
other starts. -/
def StrongDisjoint (a b : Nat × Nat) : Prop := a.2 ≤ b.1 ∨ b.2 ≤ a.1

instance : DecidableRel StrongDisjoint := fun a b =>
  inferInstanceAs (Decidable (a.2 ≤ b.1 ∨ b.2 ≤ a.1))

/-- invariant of the `enumunreferenced` loop: each range in the (sorted) list
starts at or after the cursor `o` and moves the cursor to its end. -/
def OrderedFrom : Nat → List (Nat × Nat) → Prop
  | _, [] => True
  | o, r :: rest => o ≤ r.1 ∧ r.1 ≤ r.2 ∧ OrderedFrom r.2 rest

theorem orderedFrom_mono :
    ∀ (l : List (Nat × Nat)) (o : Nat), OrderedFrom o l →
      ∀ r ∈ l, o ≤ r.1 ∧ r.1 ≤ r.2 := by
  intro l
  induction l with
  | nil => intro o _ r hr; cases hr
  | cons a rest ih =>
    intro o h r hr
    simp only [OrderedFrom] at h
    obtain ⟨h1, h2, h3⟩ := h
    rcases List.mem_cons.mp hr with rfl | hr
    · exact ⟨h1, h2⟩
    · have := ih a.2 h3 r hr
      exact ⟨by omega, this.2⟩

theorem gapsFrom_start (filesize : Nat) :
    ∀ (l : List (Nat × Nat)) (o : Nat), OrderedFrom o l →
      ∀ g ∈ gapsFrom filesize o l, o ≤ g.1 := by
  intro l
  induction l with
  | nil =>
    intro o _ g hg
    simp only [gapsFrom] at hg
    split at hg
    · simp only [List.mem_singleton] at hg
      subst hg
      simp
    · cases hg
  | cons a rest ih =>
    intro o h g hg
    simp only [OrderedFrom] at h
    obtain ⟨h1, h2, h3⟩ := h
    simp only [gapsFrom, List.mem_append] at hg
    rcases hg with hg | hg
    · split at hg
      · simp only [List.mem_singleton] at hg
        subst hg
        simp
      · cases hg
    · have := ih a.2 h3 g hg
      omega

theorem gapsFrom_within (filesize : Nat) :
    ∀ (l : List (Nat × Nat)) (o : Nat), OrderedFrom o l →
      (∀ r ∈ l, r.2 ≤ filesize) →
      ∀ g ∈ gapsFrom filesize o l, g.1 + g.2 ≤ filesize := by
  intro l
  induction l with
  | nil =>
    intro o _ _ g hg
    simp only [gapsFrom] at hg
    split at hg
    · next ho =>
      simp only [List.mem_singleton] at hg
      subst hg
      simp
      omega
    · cases hg
  | cons a rest ih =>
    intro o h hb g hg
    simp only [OrderedFrom] at h
    obtain ⟨h1, h2, h3⟩ := h
    simp only [gapsFrom, List.mem_append] at hg
    rcases hg with hg | hg
    · split at hg
      · next ho =>
        simp only [List.mem_singleton] at hg
        subst hg
        have ha := hb a (by simp)
        simp
        omega
      · cases hg
    · exact ih a.2 h3 (fun r hr => hb r (List.mem_cons_of_mem a hr)) g hg

theorem gapsFrom_disjoint (filesize : Nat) :
    ∀ (l : List (Nat × Nat)) (o : Nat), OrderedFrom o l →
      ∀ g ∈ gapsFrom filesize o l, ∀ r ∈ l, g.1 + g.2 ≤ r.1 ∨ r.2 ≤ g.1 := by
  intro l
  induction l with
  | nil => intro o _ g _ r hr; cases hr
  | cons a rest ih =>
    intro o h g hg r hr
    simp only [OrderedFrom] at h
    obtain ⟨h1, h2, h3⟩ := h
    simp only [gapsFrom, List.mem_append] at hg
    rcases List.mem_cons.mp hr with rfl | hr
    · rcases hg with hg | hg
      · split at hg
        · next ho =>
          simp only [List.mem_singleton] at hg
          subst hg
          left
          simp
          omega
        · cases hg
      · right
        have := gapsFrom_start filesize rest r.2 h3 g hg
        omega
    · rcases hg with hg | hg
      · split at hg
        · next ho =>
          simp only [List.mem_singleton] at hg
          subst hg
          left
          have := orderedFrom_mono rest a.2 h3 r hr
          simp
          omega
        · cases hg
      · exact ih a.2 h3 g hg r hr

theorem gapsFrom_pairwise (filesize : Nat) :
    ∀ (l : List (Nat × Nat)) (o : Nat), OrderedFrom o l →
      (gapsFrom filesize o l).Pairwise (fun g g2 => g.1 + g.2 ≤ g2.1) := by
  intro l
  induction l with
  | nil =>
    intro o _
    simp only [gapsFrom]
    split
    · exact List.pairwise_singleton _ _
    · exact List.Pairwise.nil
  | cons a rest ih =>
    intro o h
    simp only [OrderedFrom] at h
    obtain ⟨h1, h2, h3⟩ := h
    simp only [gapsFrom]
    apply List.pairwise_append.mpr
    refine ⟨?_, ih a.2 h3, ?_⟩
    · split
      · exact List.pairwise_singleton _ _
      · exact List.Pairwise.nil
    · intro g hg g2 hg2
      split at hg
      · next ho =>
        simp only [List.mem_singleton] at hg
        subst hg
        have := gapsFrom_start filesize rest a.2 h3 g2 hg2
        simp
        omega
      · cases hg

theorem gapsFrom_cover (filesize : Nat) :
    ∀ (l : List (Nat × Nat)) (o x : Nat), OrderedFrom o l → o ≤ x → x < filesize →
      (∃ r ∈ l, r.1 ≤ x ∧ x < r.2) ∨
        ∃ g ∈ gapsFrom filesize o l, g.1 ≤ x ∧ x < g.1 + g.2 := by
  intro l
  induction l with
  | nil =>
    intro o x _ hox hx
    right
    refine ⟨(o, filesize - o), ?_, by simp; omega⟩
    simp only [gapsFrom]
    rw [if_pos (by omega)]
    simp
  | cons a rest ih =>
    intro o x h hox hx
    simp only [OrderedFrom] at h
    obtain ⟨h1, h2, h3⟩ := h
    by_cases hxa : x < a.1
    · right
      refine ⟨(o, a.1 - o), ?_, by simp; omega⟩
      simp only [gapsFrom, List.mem_append]
      left
      rw [if_pos (by omega)]
      simp
    · by_cases hxe : x < a.2
      · exact Or.inl ⟨a, by simp, by omega, hxe⟩
      · rcases ih a.2 x h3 (by omega) hx with ⟨r, hr, hc⟩ | ⟨g, hg, hc⟩
        · exact Or.inl ⟨r, List.mem_cons_of_mem a hr, hc⟩
        · right
          refine ⟨g, ?_, hc⟩
          simp only [gapsFrom, List.mem_append]
          right
          exact hg

theorem sorted_disjoint_orderedFrom :
    ∀ (l : List (Nat × Nat)) (o : Nat), l.Sorted pairLe → l.Pairwise StrongDisjoint →
      (∀ r ∈ l, r.1 ≤ r.2) → (∀ r ∈ l, o ≤ r.1) → OrderedFrom o l := by
  intro l
  induction l with
  | nil => intro o _ _ _ _; trivial
  | cons a rest ih =>
    intro o hs hd hb ho
    obtain ⟨hs1, hs2⟩ := List.sorted_cons.mp hs
    obtain ⟨hd1, hd2⟩ := List.pairwise_cons.mp hd
    simp only [OrderedFrom]
    refine ⟨ho a (by simp), hb a (by simp), ?_⟩
    apply ih a.2 hs2 hd2 (fun r hr => hb r (List.mem_cons_of_mem a hr))
    intro r hr
    have hsl := hs1 r hr
    have hdd := hd1 r hr
    have hbr := hb r (List.mem_cons_of_mem a hr)
    have hba := hb a (List.mem_cons_self a rest)
    unfold pairLe at hsl
    unfold StrongDisjoint at hdd
    omega

/-- a Datafile whose dump-mode touched ranges overlap: two inline descriptors,
`(0, flags 0x10, length 10)` and `(2, flags 0x10, length 1)`, so dump records
the ranges `(0, 10)` and `(2, 3)` over a 10-byte container. -/
def dfC9 : Datafile :=
  ⟨0, v0102, 0, 0x40, false, 0, 0, [(0, 0x1000000A, 0), (2, 0x10000001, 0)],
   [0, 1, 2, 3, 4, 5, 6, 7, 8, 9]⟩

/-- C9: refuted as stated.  On `dfC9`, dump produces the touched ranges
`[(0,10), (2,3)]`; `enumunreferenced` then yields the single "unreferenced"
range `(3, 7)` — covering offsets 3..9 — although those offsets lie inside the
touched range `(0, 10)`: the cursor `o = end` moves backwards over the
contained range `(2,3)`, so a yielded range overlaps a touched range and the
partition property fails. -/
theorem c9_counterexample :
    dumpRanges dfC9 1 = some (.ok [(0, 10), (2, 3)]) ∧
    dfC9.datsize = 10 ∧
    enumunreferenced [(0, 10), (2, 3)] 10 = [(3, 7)] ∧
    ¬ ((3 : Nat) + 7 ≤ 0 ∨ (10 : Nat) ≤ 3) := by
  refine ⟨by decide, by decide, by decide, by decide⟩

/-- C9 amended: the partition holds for touched-range lists that are pairwise
non-overlapping (as intervals) and contained in `[0, container_size)` — dump
produces such lists when the descriptors do not overlap and stay in bounds,
but can produce overlapping ones (`c9_counterexample`).  Under those two
hypotheses: every offset below `container_size` lies in a touched range or in
a yielded unreferenced range; no yielded range overlaps any touched range;
the yielded ranges are pairwise disjoint (in increasing order); and every
yielded range stays inside the container. -/
theorem c9_theorem (ranges : List (Nat × Nat)) (filesize : Nat)
    (hb : ∀ r ∈ ranges, r.1 ≤ r.2 ∧ r.2 ≤ filesize)
    (hd : ranges.Pairwise StrongDisjoint) :
    (∀ x, x < filesize →
      (∃ r ∈ ranges, r.1 ≤ x ∧ x < r.2) ∨
        ∃ g ∈ enumunreferenced ranges filesize, g.1 ≤ x ∧ x < g.1 + g.2) ∧
    (∀ g ∈ enumunreferenced ranges filesize, ∀ r ∈ ranges,
      g.1 + g.2 ≤ r.1 ∨ r.2 ≤ g.1) ∧
    (enumunreferenced ranges filesize).Pairwise (fun g g2 => g.1 + g.2 ≤ g2.1) ∧
    (∀ g ∈ enumunreferenced ranges filesize, g.1 + g.2 ≤ filesize) := by
  have hperm : List.Perm (List.insertionSort pairLe ranges) ranges :=
    List.perm_insertionSort pairLe ranges
  have hsorted : (List.insertionSort pairLe ranges).Sorted pairLe :=
    List.sorted_insertionSort pairLe ranges
  have hdl : (List.insertionSort pairLe ranges).Pairwise StrongDisjoint :=
    (hperm.pairwise_iff (fun h => h.symm)).mpr hd
  have hbl : ∀ r ∈ List.insertionSort pairLe ranges, r.1 ≤ r.2 ∧ r.2 ≤ filesize :=
    fun r hr => hb r (hperm.mem_iff.mp hr)
  have hord : OrderedFrom 0 (List.insertionSort pairLe ranges) :=
    sorted_disjoint_orderedFrom _ 0 hsorted hdl (fun r hr => (hbl r hr).1)
      (fun r _ => Nat.zero_le _)
  have henum : enumunreferenced ranges filesize =
      gapsFrom filesize 0 (List.insertionSort pairLe ranges) := rfl
  refine ⟨?_, ?_, ?_, ?_⟩
  · intro x hx
    rcases gapsFrom_cover filesize _ 0 x hord (Nat.zero_le x) hx with
      ⟨r, hr, hc⟩ | ⟨g, hg, hc⟩
    · exact Or.inl ⟨r, hperm.mem_iff.mp hr, hc⟩
    · exact Or.inr ⟨g, henum ▸ hg, hc⟩
  · intro g hg r hr
    exact gapsFrom_disjoint filesize _ 0 hord g (henum ▸ hg) r (hperm.mem_iff.mpr hr)
  · rw [henum]
    exact gapsFrom_pairwise filesize _ 0 hord
  · intro g hg
    exact gapsFrom_within filesize _ 0 hord (fun r hr => (hbl r hr).2) g (henum ▸ hg)

/-- witness for `c9_theorem`: the disjoint in-bounds touched ranges
`[(2,4), (6,8)]` in a 10-byte container, whose gaps are
`[(0,2), (4,2), (8,2)]`. -/
theorem c9_witness :
    (∀ x, x < 10 →
      (∃ r ∈ ([(2, 4), (6, 8)] : List (Nat × Nat)), r.1 ≤ x ∧ x < r.2) ∨
        ∃ g ∈ enumunreferenced [(2, 4), (6, 8)] 10, g.1 ≤ x ∧ x < g.1 + g.2) ∧
    (∀ g ∈ enumunreferenced [(2, 4), (6, 8)] 10,
      ∀ r ∈ ([(2, 4), (6, 8)] : List (Nat × Nat)), g.1 + g.2 ≤ r.1 ∨ r.2 ≤ g.1) ∧
    (enumunreferenced [(2, 4), (6, 8)] 10).Pairwise (fun g g2 => g.1 + g.2 ≤ g2.1) ∧
    (∀ g ∈ enumunreferenced [(2, 4), (6, 8)] 10, g.1 + g.2 ≤ 10) :=
  c9_theorem [(2, 4), (6, 8)] 10 (by decide) (by decide)

end Crodump
